import Mathlib

/-!
Verification of the SQLValidatorAPI frontend annotation pipeline.

The pipeline lives in the React component `App` (handleSubmit, handleSuggestFix,
the CodeMirror onChange handler and the customGutter extension) and in the two
boundary functions `validateQuery` (api/queryApi.ts) and `getAiSuggestion`
(api/aiApi.ts).  JavaScript strings are modelled as lists of characters,
1-based line numbers as `Nat`, the in-flight fetch promises as explicit
`pending...` fields of the session record, and their resolution as events.
-/

namespace SQLVal

/-- JS strings are modelled as lists of characters. -/
abbrev JStr := List Char

/-- The regex character class <code>\s</code>, restricted to its ASCII members
(space, tab, line feed, vertical tab, form feed, carriage return). -/
def isJsWs (c : Char) : Bool :=
  c == ' ' || c == '\t' || c == '\n' || c == '\r' || c == '\x0b' || c == '\x0c'

/-- Numeric value of a decimal digit run, mirroring `parseInt(match[1], 10)`
(exact arithmetic; JS float imprecision on astronomically long digit runs is
not modelled). -/
def digitsVal (ds : List Char) : Nat :=
  ds.foldl (fun a c => a * 10 + (c.toNat - 48)) 0

/-- `String.prototype.trim()`: whitespace stripped from both ends. -/
def jsTrim (s : JStr) : JStr :=
  ((s.dropWhile isJsWs).reverse.dropWhile isJsWs).reverse

/-- `query.split('\n')` (order preserving, empty trailing piece included;
the result is always non-empty, `"".split('\n')` gives `['']`). -/
def splitNl : JStr → List JStr
  | [] => [[]]
  | c :: rest =>
    match splitNl rest with
    | [] => [[]]
    | l :: ls => if c = '\n' then [] :: l :: ls else (c :: l) :: ls

/-- Inverse of `splitNl`: joins lines with a line-feed separator. -/
def joinNl : List JStr → JStr
  | [] => []
  | l :: ls =>
    match ls with
    | [] => l
    | a :: ls2 => l ++ '\n' :: joinNl (a :: ls2)

/-- The literal prefix matched by the regex `^Line (\d+):`. -/
def linePre : JStr := ['L', 'i', 'n', 'e', ' ']

/-- `{ lineNumber, message }` extracted from one raw issue string. -/
structure ParsedIssue where
  lineNumber : Nat
  message : JStr
deriving DecidableEq, Repr

/-- The part of the regex `^Line (\d+):` after the literal prefix: one or
more decimal digits (the capture group, taken greedily — since `:` is not a
digit, greedy matching and backtracking coincide) followed by `:`.  On a
match, the message is the rest of the string with every directly following
whitespace character stripped (`\s*` in the replace regex is greedy). -/
def parseRest (r : JStr) : Option ParsedIssue :=
  if r.takeWhile Char.isDigit = [] then none
  else
    match r.drop (r.takeWhile Char.isDigit).length with
    | c :: tail =>
      if c = ':' then some ⟨digitsVal (r.takeWhile Char.isDigit), tail.dropWhile isJsWs⟩
      else none
    | [] => none

/-- Embedding of the two anchored regexes in `handleSubmit`:
`msg.match(/^Line (\d+):/)` decides the match and captures the digit run;
`msg.replace(/^Line \d+:\s*/, '')` computes the message.  A non-matching
string yields no `ParsedIssue`. -/
def parseIssue (s : JStr) : Option ParsedIssue :=
  if s.take 5 = linePre then parseRest (s.drop 5) else none

/-- `lines.slice(0, e)` for a possibly negative end index `e`
(JS slice semantics: a negative end counts from the end of the array,
clamped at 0; an end beyond the array length is clamped to the length). -/
def jsSliceTo (ls : List JStr) (e : Int) : List JStr :=
  ls.take (if e < 0 then ((ls.length : Int) + e).toNat else e.toNat)

/-- `lines.slice(0, lineNumber - 1).reduce((sum, l) => sum + l.length + 1, 0)`:
the start offset the code computes for a 1-based line number.  The `- 1` is
JS number arithmetic, so for `n = 0` the slice end is `-1`. -/
def startOffset (lines : List JStr) (n : Nat) : Nat :=
  (jsSliceTo lines ((n : Int) - 1)).foldl (fun sum l => sum + l.length + 1) 0

/-- `lines[lineNumber - 1] || ''`: out-of-range access gives `undefined`,
which `|| ''` turns into the empty string (an empty line is also mapped to
`''`, with the same value). -/
def getLineOr (lines : List JStr) (n : Nat) : JStr :=
  if n = 0 then [] else ((lines.get? (n - 1)).getD [])

/-- The fixed severity the code assigns. -/
def warnSev : JStr := ['w', 'a', 'r', 'n', 'i', 'n', 'g']

/-- One entry of the editor's diagnostic list, as pushed by `handleSubmit`
(`from`/`to` renamed to `fromPos`/`toPos`: `from` is a Lean keyword). -/
structure Diagnostic where
  fromPos : Nat
  toPos : Nat
  severity : JStr
  message : JStr
deriving DecidableEq, Repr

/-- The body of the `result.forEach` loop in `handleSubmit`: a raw issue
string either becomes one Diagnostic or is skipped (regex mismatch). -/
def mapIssue (lines : List JStr) (msg : JStr) : Option Diagnostic :=
  match parseIssue msg with
  | none => none
  | some pi =>
    some ⟨startOffset lines pi.lineNumber,
          startOffset lines pi.lineNumber + (getLineOr lines pi.lineNumber).length,
          warnSev, pi.message⟩

/-- The whole `result.forEach` loop: push order follows input order. -/
def buildDiagnostics (lines : List JStr) (msgs : List JStr) : List Diagnostic :=
  msgs.filterMap (mapIssue lines)

/-- `view.state.doc.lineAt(pos)` restricted to the data the gutter reads:
`(line.number, line.from)` for the line containing `pos`; a position equal
to a line's end offset (just before its line break) belongs to that line.
`none` models the `RangeError` CodeMirror raises for a position beyond the
document length. -/
def lineAt : List JStr → Nat → Option (Nat × Nat)
  | [], _ => none
  | l :: ls, pos =>
    if pos ≤ l.length then some (1, 0)
    else (lineAt ls (pos - (l.length + 1))).map (fun p => (p.1 + 1, p.2 + (l.length + 1)))

/-- The loop of `customGutter`'s `markers` callback: iterate diagnostics in
order, resolve each `from` offset to its line, and emit `(line.number,
line.from)` for each first-seen line number (the `seenLines` set guards
against duplicates).  `none` models a failed `lineAt` lookup.  The real
`RangeSetBuilder` additionally requires its `add` calls to arrive sorted by
position and raises an error otherwise; the emission order recorded here is
exactly the `builder.add` call order. -/
def gutterMarksAux (lines : List JStr) : List Diagnostic → List Nat → Option (List (Nat × Nat))
  | [], _ => some []
  | d :: ds, seen =>
    match lineAt lines d.fromPos with
    | none => none
    | some nf =>
      if nf.1 ∈ seen then gutterMarksAux lines ds seen
      else
        match gutterMarksAux lines ds (nf.1 :: seen) with
        | none => none
        | some rest => some (nf :: rest)

/-- `customGutter`'s marker computation, starting from an empty seen-set. -/
def gutterMarks (lines : List JStr) (diags : List Diagnostic) : Option (List (Nat × Nat)) :=
  gutterMarksAux lines diags []

/-- JSON values as far as the two boundary functions inspect them.  `jobj`
keeps only the two fields `getAiSuggestion` reads (`data.response`,
`data.message`), as optional string values; any other field value shape
behaves like an absent field for the `||` chain. -/
inductive JsonVal where
  | jnull
  | jbool (b : Bool)
  | jnum (n : Int)
  | jstr (s : JStr)
  | jarr (elems : List JsonVal)
  | jobj (response : Option JStr) (message : Option JStr)

/-- Outcome of one `fetch` round trip: either the promise rejects (network
failure), or a response arrives with its `ok` flag and a body that either
parses as JSON (`some v`) or does not (`none`, making `res.json()` reject). -/
inductive FetchOutcome where
  | netErr
  | resp (ok : Bool) (body : Option JsonVal)

/-- `validateQuery` (api/queryApi.ts): posts the query and returns
`await res.json()` with no status check and no try/catch; the promise
rejects (`Except.error`) only on network failure or a non-JSON body. -/
def validateQuery (f : FetchOutcome) : Except Unit JsonVal :=
  match f with
  | .netErr => .error ()
  | .resp _ body =>
    match body with
    | none => .error ()
    | some v => .ok v

/-- The truthiness filter of the `data.response || data.message || fallback`
chain: an absent field or an empty string falls through. -/
def truthyStr : Option JStr → Option JStr
  | some s => if s = [] then none else some s
  | none => none

/-- Fixed fallback of `getAiSuggestion` when the parsed body carries no
usable string. -/
def noSuggestionMsg : JStr := ("⚠️ No suggestion returned.".data)

/-- Fixed string `getAiSuggestion` returns from its catch block. -/
def aiErrorMsg : JStr := ("⚠️ Error fetching AI suggestion.".data)

/-- Fixed issue string `handleSubmit` installs from its catch block. -/
def valErrorMsg : JStr := ("An error occurred while validating.".data)

/-- Fixed fallback of `handleSuggestFix` for an all-whitespace suggestion. -/
def noSuggestionLocal : JStr := ("No suggestion returned.".data)

/-- `getAiSuggestion` (api/aiApi.ts): throws on `!res.ok`, otherwise parses
the body and extracts a string; every failure path is caught by its own
try/catch and resolves to the fixed error string.  `data.response` on a
`null` body throws a TypeError, also caught. -/
def getAiSuggestion (f : FetchOutcome) : JStr :=
  match f with
  | .netErr => aiErrorMsg
  | .resp ok body =>
    if ok = false then aiErrorMsg
    else
      match body with
      | none => aiErrorMsg
      | some (.jstr s) => s
      | some .jnull => aiErrorMsg
      | some (.jobj r m) => ((truthyStr r).getD ((truthyStr m).getD noSuggestionMsg))
      | some _ => noSuggestionMsg

/-- `suggestion?.trim() || 'No suggestion returned.'` in `handleSuggestFix`. -/
def trimOrDefault (r : JStr) : JStr :=
  let t := jsTrim r
  if t = [] then noSuggestionLocal else t

/-- `allStrings` checks that every element of a JSON array is a string;
a non-string element makes `msg.match` throw inside the forEach loop. -/
def allStrings : List JsonVal → Option (List JStr)
  | [] => some []
  | .jstr s :: rest => (allStrings rest).map (fun l => s :: l)
  | _ :: _ => none

/-- `result` usable as `string[]`: a JSON array of strings.  Any other JSON
shape makes `result.forEach` (or `msg.match`) throw a TypeError inside the
`try`, which the catch block then converts to the fallback state. -/
def decodeStrArr : JsonVal → Option (List JStr)
  | .jarr es => allStrings es
  | _ => none

/-- The React component state (`useState` hooks) together with the in-flight
requests.  `pendingValidate` records the query captured by the
`handleSubmit` closure at click time; `pendingSuggest` records the
`(query, issues)` pair captured by `handleSuggestFix`.  At most one request
of each kind is kept (a re-click overwrites; completions of an overwritten
request are not modelled, which no claim here needs). -/
structure Session where
  query : JStr
  issues : List JStr
  diagnostics : List Diagnostic
  suggestedFix : JStr
  loading : Bool
  pendingValidate : Option JStr
  pendingSuggest : Option (JStr × List JStr)
deriving DecidableEq, Repr

/-- Initial state: all `useState` initializers. -/
def init : Session := ⟨[], [], [], [], false, none, none⟩

/-- Shared failure branch of `handleSubmit`'s catch block:
`setIssues(['An error occurred while validating.']); setDiagnostics([])`. -/
def valFail (s : Session) : Session :=
  { s with issues := [valErrorMsg], diagnostics := [], loading := false,
           pendingValidate := none }

/-- The part of `handleSubmit` after `await validateQuery(query)` resolves:
on success, `setIssues(result)` and the forEach loop build the diagnostics
from the lines of the closure-captured query `q`; any throw inside the
`try` (rejected promise, non-array result, non-string element) lands in
the catch block; `finally` clears the loading flag. -/
def handleSubmitDone (s : Session) (q : JStr) (f : FetchOutcome) : Session :=
  match validateQuery f with
  | .error _ => valFail s
  | .ok v =>
    match decodeStrArr v with
    | some msgs =>
      { s with issues := msgs, diagnostics := buildDiagnostics (splitNl q) msgs,
               loading := false, pendingValidate := none }
    | none => valFail s

/-- User-visible actions and network completions, the only drivers of state
change (single logical thread; each completion event resolves the matching
pending request, if any). -/
inductive Ev where
  | edit (newText : JStr)
  | clickValidate
  | validateComplete (f : FetchOutcome)
  | clickSuggestFix
  | suggestFixComplete (f : FetchOutcome)

/-- One transition of the session:
`edit` is the CodeMirror `onChange` handler (`setQuery(value);
setSuggestedFix(''); setIssues([]); setDiagnostics([])` — note it touches
neither the loading flag nor the in-flight requests);
`clickValidate` is the synchronous head of `handleSubmit`
(`setLoading(true)` and the closure capture of `query`);
`clickSuggestFix` models the Suggest Fix button, whose only gate is
`disabled={issues.length === 0}`, capturing `(query, issues)`;
the two completion events run the code after the corresponding `await`.
`handleSuggestFix` applies its result unconditionally — there is no
comparison against the current query. -/
def step (s : Session) : Ev → Session
  | .edit t => { s with query := t, issues := [], diagnostics := [], suggestedFix := [] }
  | .clickValidate => { s with loading := true, pendingValidate := some s.query }
  | .validateComplete f =>
    match s.pendingValidate with
    | none => s
    | some q => handleSubmitDone s q f
  | .clickSuggestFix =>
    if s.issues = [] then s
    else { s with pendingSuggest := some (s.query, s.issues) }
  | .suggestFixComplete f =>
    match s.pendingSuggest with
    | none => s
    | some _ => { s with suggestedFix := trimOrDefault (getAiSuggestion f),
                         pendingSuggest := none }

/-- A run of the session from a starting state. -/
def steps (s : Session) (evs : List Ev) : Session := evs.foldl step s

/-- The code-level reading of the spec's `Idle` status: no request in
flight and the loading flag down. -/
def IdleS (s : Session) : Prop :=
  s.loading = false ∧ s.pendingValidate = none ∧ s.pendingSuggest = none

instance (s : Session) : Decidable (IdleS s) := by
  unfold IdleS; infer_instance

/-- Modelled from the spec (section 4.2), for comparison with `parseIssue`:
strip exactly one following whitespace character. -/
def stripOneWs : JStr → JStr
  | [] => []
  | c :: r => if isJsWs c then r else c :: r

/-- Modelled from the spec (section 4.2), for comparison with `parseIssue`:
the message is the remainder with the matched prefix and any SINGLE
following whitespace character stripped. -/
def parseIssueSpecC4 (s : JStr) : Option ParsedIssue :=
  if s.take 5 = linePre then
    if (s.drop 5).takeWhile Char.isDigit = [] then none
    else
      match (s.drop 5).drop ((s.drop 5).takeWhile Char.isDigit).length with
      | c :: tail =>
        if c = ':' then
          some ⟨digitsVal ((s.drop 5).takeWhile Char.isDigit), stripOneWs tail⟩
        else none
      | [] => none
  else none

/-- Concrete session used below: a suggest-fix request was issued for
`"SELECT *"` and the document has since been edited to `"SELECT 1"`. -/
def sStale : Session :=
  { init with
    query := ("SELECT 1".data)
    pendingSuggest := some (("SELECT *".data), [("Line 1: x".data)]) }

/-- Concrete session used below: one raw issue, nothing else. -/
def sIssue : Session := { init with issues := [("oops".data)] }

/-- Concrete session used below: a validate request in flight. -/
def sPendingV : Session := { init with pendingValidate := some [] }

/-- Concrete five-line document `"a\na\na\na\na"` used in the gutter
examples: line `i` starts at offset `2 * (i - 1)`. -/
def lines5 : List JStr := splitNl ("a\na\na\na\na".data)

/-- A Diagnostic whose range is line 3 of `lines5`. -/
def dOn3 : Diagnostic := ⟨4, 5, warnSev, []⟩

/-- A Diagnostic whose range is line 5 of `lines5`. -/
def dOn5 : Diagnostic := ⟨8, 9, warnSev, []⟩

/-! ## General list lemmas -/

theorem foldl_add_len (ls : List JStr) (a : Nat) :
    ls.foldl (fun sum l => sum + l.length + 1) a
      = a + (ls.map (fun l => l.length + 1)).sum := by
  induction ls generalizing a with
  | nil => simp
  | cons l ls ih =>
    simp only [List.foldl_cons, List.map_cons, List.sum_cons, ih]
    omega

theorem drop_append_plus {α : Type} (xs ys : List α) (m : Nat) :
    (xs ++ ys).drop (xs.length + m) = ys.drop m := by
  induction xs with
  | nil => simp
  | cons a xs ih =>
    simp only [List.cons_append, List.length_cons]
    have h : xs.length + 1 + m = (xs.length + m) + 1 := by omega
    rw [h, List.drop_succ_cons, ih]

theorem drop_append_self {α : Type} (xs ys : List α) :
    (xs ++ ys).drop xs.length = ys := by
  have h := drop_append_plus xs ys 0
  rw [Nat.add_zero, List.drop_zero] at h
  exact h

theorem takeWhile_all_append (p : Char → Bool) (xs : List Char) (y : Char) (ys : List Char)
    (h : ∀ x ∈ xs, p x = true) (hy : p y = false) :
    (xs ++ y :: ys).takeWhile p = xs := by
  induction xs with
  | nil => simp [List.takeWhile_cons, hy]
  | cons a xs ih =>
    have ha : p a = true := h a (by simp)
    simp only [List.cons_append, List.takeWhile_cons, ha, if_true]
    rw [ih (fun x hx => h x (by simp [hx]))]

/-! ## Lemmas about the line structure -/

theorem splitNl_ne_nil (s : JStr) : splitNl s ≠ [] := by
  cases s with
  | nil => simp [splitNl]
  | cons c rest =>
    cases hsp : splitNl rest with
    | nil => simp [splitNl, hsp]
    | cons l ls => by_cases hc : c = '\n' <;> simp [splitNl, hsp, hc]

theorem joinNl_splitNl (s : JStr) : joinNl (splitNl s) = s := by
  induction s with
  | nil => rfl
  | cons c rest ih =>
    obtain ⟨l, ls, hsp⟩ : ∃ l ls, splitNl rest = l :: ls := by
      cases hsp : splitNl rest with
      | nil => exact absurd hsp (splitNl_ne_nil rest)
      | cons l ls => exact ⟨l, ls, rfl⟩
    rw [hsp] at ih
    by_cases hc : c = '\n'
    · subst hc
      have hstep : splitNl ('\n' :: rest) = [] :: l :: ls := by
        simp [splitNl, hsp]
      rw [hstep]
      simp only [joinNl, List.nil_append]
      rw [ih]
    · have hstep : splitNl (c :: rest) = (c :: l) :: ls := by
        simp [splitNl, hsp, hc]
      rw [hstep]
      cases ls with
      | nil =>
        simp only [joinNl] at ih ⊢
        rw [ih]
      | cons a ls2 =>
        simp only [joinNl] at ih ⊢
        rw [List.cons_append, ih]

theorem startOffset_eq_sum (lines : List JStr) (n : Nat) (h : 1 ≤ n) :
    startOffset lines n = ((lines.take (n - 1)).map (fun l => l.length + 1)).sum := by
  unfold startOffset jsSliceTo
  have h1 : ¬ ((n : Int) - 1 < 0) := by omega
  have h2 : ((n : Int) - 1).toNat = n - 1 := by omega
  rw [if_neg h1, h2, foldl_add_len]
  omega

theorem getLineOr_out (lines : List JStr) (n : Nat)
    (h : n = 0 ∨ lines.length < n) : getLineOr lines n = [] := by
  rcases h with h | h
  · simp [getLineOr, h]
  · have h0 : ¬ n = 0 := by omega
    have hle : lines.length ≤ n - 1 := by omega
    unfold getLineOr
    rw [if_neg h0, List.get?_eq_none.mpr hle]
    rfl

theorem getLineOr_in (lines : List JStr) (n : Nat) (h1 : 1 ≤ n)
    (hn : n - 1 < lines.length) :
    getLineOr lines n = lines.get ⟨n - 1, hn⟩ := by
  unfold getLineOr
  rw [if_neg (by omega : ¬ n = 0), List.get?_eq_get hn]
  rfl

/-- Slicing the joined text at the accumulated offset of line `k` (0-based)
recovers exactly that line. -/
theorem slice_at_line (ls : List JStr) (k : Nat) (hk : k < ls.length) :
    ((joinNl ls).drop (((ls.take k).map (fun l => l.length + 1)).sum)).take
        ((ls.get ⟨k, hk⟩).length)
      = ls.get ⟨k, hk⟩ := by
  induction ls generalizing k with
  | nil => simp at hk
  | cons l ls ih =>
    cases k with
    | zero =>
      simp only [List.take_zero, List.map_nil, List.sum_nil, List.drop_zero, List.get]
      cases ls with
      | nil => simp [joinNl]
      | cons a ls2 =>
        simp only [joinNl]
        exact List.take_left l ('\n' :: joinNl (a :: ls2))
    | succ k =>
      have hk2 : k < ls.length := by simpa using hk
      obtain ⟨a, ls2, rfl⟩ : ∃ a ls2, ls = a :: ls2 := by
        cases ls with
        | nil => simp at hk2
        | cons a ls2 => exact ⟨a, ls2, rfl⟩
      simp only [joinNl, List.take_succ_cons, List.map_cons, List.sum_cons, List.get]
      rw [List.append_cons l '\n' (joinNl (a :: ls2))]
      have hlen : (l ++ ['\n']).length = l.length + 1 := by simp
      have hd := drop_append_plus (l ++ ['\n']) (joinNl (a :: ls2))
          (((List.take k (a :: ls2)).map (fun l => l.length + 1)).sum)
      rw [hlen] at hd
      rw [show l.length + 1 + ((List.take k (a :: ls2)).map (fun l => l.length + 1)).sum
            = l.length + 1 + ((List.take k (a :: ls2)).map (fun l => l.length + 1)).sum
          from rfl]
      rw [hd]
      exact ih k hk2

/-! ## C5: line start offsets -/

/-- C5 (confirmed): for a line number `n` within range, the start offset the
code computes for line `n` equals the sum of `length(line i) + 1` over the
lines before it; `offset(1) = 0` and `offset(n+1) = offset(n) +
length(line n) + 1`. -/
theorem c5_offsets (lines : List JStr) (n : Nat) (h1 : 1 ≤ n) (h2 : n ≤ lines.length) :
    startOffset lines n = ((lines.take (n - 1)).map (fun l => l.length + 1)).sum ∧
    startOffset lines 1 = 0 ∧
    startOffset lines (n + 1) = startOffset lines n + (getLineOr lines n).length + 1 := by
  refine ⟨startOffset_eq_sum lines n h1, ?_, ?_⟩
  · rw [startOffset_eq_sum lines 1 le_rfl]; simp
  · rw [startOffset_eq_sum lines (n + 1) (by omega), startOffset_eq_sum lines n h1]
    have hn : n - 1 < lines.length := by omega
    have hidx : n + 1 - 1 = (n - 1) + 1 := by omega
    rw [hidx, List.take_succ, List.getElem?_eq_getElem hn]
    rw [getLineOr_in lines n h1 hn]
    rw [List.map_append, List.sum_append]
    simp only [Option.toList_some, List.map_cons, List.map_nil, List.sum_cons,
      List.sum_nil, List.get_eq_getElem]
    omega

/-- C5 witness at a concrete two-line document and `n = 2`. -/
theorem c5_offsets_w :
    (1 ≤ 2 ∧ 2 ≤ (splitNl ("ab\nc".data)).length) ∧
    (startOffset (splitNl ("ab\nc".data)) 2
        = (((splitNl ("ab\nc".data)).take (2 - 1)).map (fun l => l.length + 1)).sum ∧
      startOffset (splitNl ("ab\nc".data)) 1 = 0 ∧
      startOffset (splitNl ("ab\nc".data)) (2 + 1)
        = startOffset (splitNl ("ab\nc".data)) 2
            + (getLineOr (splitNl ("ab\nc".data)) 2).length + 1) :=
  ⟨by decide, c5_offsets (splitNl ("ab\nc".data)) 2 (by decide) (by decide)⟩

/-! ## C4: the issue parser -/

/-- Structural characterization of `parseRest`. -/
theorem parseRest_eq_some (r : JStr) (n : Nat) (m : JStr) :
    parseRest r = some ⟨n, m⟩ ↔
      ∃ ds rest, ds ≠ [] ∧ ds.all Char.isDigit ∧ r = ds ++ ':' :: rest ∧
        n = digitsVal ds ∧ m = rest.dropWhile isJsWs := by
  constructor
  · intro hp
    unfold parseRest at hp
    set ds := r.takeWhile Char.isDigit with hds
    by_cases hne : ds = []
    · rw [if_pos hne] at hp; exact absurd hp (by simp)
    · rw [if_neg hne] at hp
      split at hp
      · rename_i c tail heq
        split at hp
        · rename_i hc
          subst hc
          simp only [Option.some.injEq, ParsedIssue.mk.injEq] at hp
          obtain ⟨t, ht⟩ := List.takeWhile_prefix (p := Char.isDigit) (l := r)
          rw [← hds] at ht
          have hdrop : r.drop ds.length = t := by
            conv_lhs => rw [← ht]
            exact drop_append_self _ _
          rw [hdrop] at heq
          refine ⟨ds, tail, hne, ?_, ?_, hp.1.symm, hp.2.symm⟩
          · rw [hds]
            exact List.all_eq_true.mpr (fun x hx => List.mem_takeWhile_imp hx)
          · rw [← ht, heq]
        · exact absurd hp (by simp)
      · exact absurd hp (by simp)
  · rintro ⟨ds, rest, hne, hall, rfl, rfl, rfl⟩
    unfold parseRest
    have htw : (ds ++ ':' :: rest).takeWhile Char.isDigit = ds :=
      takeWhile_all_append _ _ _ _ (fun x hx => List.all_eq_true.mp hall x hx) (by decide)
    rw [htw, if_neg hne, drop_append_self ds (':' :: rest)]
    simp

/-- C4 (amended): a raw issue string parses iff it is the literal prefix
`"Line "` followed by one or more decimal digits and `":"`; `lineNumber` is
the digits' value, and `message` is the remainder with EVERY directly
following whitespace character stripped (not just a single one). -/
theorem c4_parseRule (s : JStr) (n : Nat) (m : JStr) :
    parseIssue s = some ⟨n, m⟩ ↔
      ∃ ds rest, ds ≠ [] ∧ ds.all Char.isDigit ∧
        s = linePre ++ ds ++ ':' :: rest ∧ n = digitsVal ds ∧
        m = rest.dropWhile isJsWs := by
  unfold parseIssue
  by_cases h5 : s.take 5 = linePre
  · rw [if_pos h5, parseRest_eq_some]
    constructor
    · rintro ⟨ds, rest, hne, hall, hdec, hn, hm⟩
      refine ⟨ds, rest, hne, hall, ?_, hn, hm⟩
      conv_lhs => rw [← List.take_append_drop 5 s]
      rw [h5, hdec, List.append_assoc]
    · rintro ⟨ds, rest, hne, hall, hs, hn, hm⟩
      refine ⟨ds, rest, hne, hall, ?_, hn, hm⟩
      rw [hs, List.append_assoc, show (5 : Nat) = linePre.length from rfl]
      exact drop_append_self _ _
  · rw [if_neg h5]
    constructor
    · intro hp; exact absurd hp (by simp)
    · rintro ⟨ds, rest, hne, hall, hs, hn, hm⟩
      exfalso
      apply h5
      rw [hs, List.append_assoc, show (5 : Nat) = linePre.length from rfl, List.take_left]

/-- C4 counterexample: on `"Line 1:  a"` (two spaces) the code strips BOTH
spaces, while the claim (strip a single whitespace character) demands the
message `" a"`. -/
theorem c4_cex :
    parseIssue ("Line 1:  a".data) = some ⟨1, ("a".data)⟩ ∧
    parseIssueSpecC4 ("Line 1:  a".data) = some ⟨1, (" a".data)⟩ ∧
    ("a".data : JStr) ≠ (" a".data) := by decide

/-! ## C1: out-of-range line numbers are not dropped -/

/-- C1 (amended): an issue whose parsed line number is 0 or exceeds the
document's line count is NOT dropped: `handleSubmit` still pushes a
Diagnostic for it, with an empty range (`from = to`, past the end of the
preceding lines), because `lines[lineNumber - 1] || ''` degrades to the
empty string instead of rejecting the issue. -/
theorem c1_outOfRange_kept (lines : List JStr) (msg : JStr) (pi : ParsedIssue)
    (hp : parseIssue msg = some pi)
    (hout : pi.lineNumber = 0 ∨ lines.length < pi.lineNumber) :
    mapIssue lines msg
      = some ⟨startOffset lines pi.lineNumber, startOffset lines pi.lineNumber,
              warnSev, pi.message⟩ := by
  unfold mapIssue
  rw [hp]
  simp [getLineOr_out lines pi.lineNumber hout]

/-- C1 witness: the spec's own boundary example, `"Line 9: out of range"`
on the two-line document `"SELECT *\nFROM t"`. -/
theorem c1_outOfRange_kept_w :
    mapIssue (splitNl ("SELECT *\nFROM t".data)) ("Line 9: out of range".data)
      = some ⟨16, 16, warnSev, ("out of range".data)⟩ :=
  (c1_outOfRange_kept (splitNl ("SELECT *\nFROM t".data)) ("Line 9: out of range".data)
      ⟨9, ("out of range".data)⟩ (by decide) (by decide)).trans (by decide)

/-- C1 counterexample: the validate response `["Line 9: out of range"]` on
the two-line document yields ONE Diagnostic, not zero. -/
theorem c1_cex :
    buildDiagnostics (splitNl ("SELECT *\nFROM t".data)) [("Line 9: out of range".data)]
        = [⟨16, 16, warnSev, ("out of range".data)⟩] ∧
    buildDiagnostics (splitNl ("SELECT *\nFROM t".data)) [("Line 9: out of range".data)]
        ≠ [] := by decide

/-! ## C6: round-trip through the offset table -/

/-- C6 (confirmed): for a parsed issue whose line number is within the
document's line count, the Diagnostic produced by `handleSubmit` has
`from = offset(n)`, `to = from + length(line n)`, and slicing
`text[from:to]` reproduces exactly line `n`'s content (excluding its line
break). -/
theorem c6_roundtrip (text : JStr) (msg : JStr) (pi : ParsedIssue)
    (hp : parseIssue msg = some pi)
    (h1 : 1 ≤ pi.lineNumber) (h2 : pi.lineNumber ≤ (splitNl text).length) :
    ∃ d, mapIssue (splitNl text) msg = some d ∧
      d.fromPos = startOffset (splitNl text) pi.lineNumber ∧
      d.toPos = d.fromPos + (getLineOr (splitNl text) pi.lineNumber).length ∧
      (text.drop d.fromPos).take (d.toPos - d.fromPos)
        = getLineOr (splitNl text) pi.lineNumber := by
  set L := splitNl text with hL
  have hn : pi.lineNumber - 1 < L.length := by omega
  refine ⟨⟨startOffset L pi.lineNumber,
           startOffset L pi.lineNumber + (getLineOr L pi.lineNumber).length,
           warnSev, pi.message⟩, ?_, rfl, rfl, ?_⟩
  · unfold mapIssue
    rw [hp]
  · have hjoin : joinNl L = text := by rw [hL]; exact joinNl_splitNl text
    have hsub : startOffset L pi.lineNumber + (getLineOr L pi.lineNumber).length
        - startOffset L pi.lineNumber = (getLineOr L pi.lineNumber).length := by
      omega
    rw [hsub, getLineOr_in L pi.lineNumber h1 hn, startOffset_eq_sum L pi.lineNumber h1,
      ← hjoin]
    exact slice_at_line L (pi.lineNumber - 1) hn

/-- C6 witness: the spec's end-to-end example, `"Line 1: avoid SELECT *"`
on `"SELECT *\nFROM t\n"`. -/
theorem c6_roundtrip_w :
    ∃ d, mapIssue (splitNl ("SELECT *\nFROM t\n".data)) ("Line 1: avoid SELECT *".data)
          = some d ∧
      d.fromPos = startOffset (splitNl ("SELECT *\nFROM t\n".data)) 1 ∧
      d.toPos = d.fromPos + (getLineOr (splitNl ("SELECT *\nFROM t\n".data)) 1).length ∧
      (("SELECT *\nFROM t\n".data).drop d.fromPos).take (d.toPos - d.fromPos)
        = getLineOr (splitNl ("SELECT *\nFROM t\n".data)) 1 :=
  c6_roundtrip ("SELECT *\nFROM t\n".data) ("Line 1: avoid SELECT *".data)
    ⟨1, ("avoid SELECT *".data)⟩ (by decide) (by decide) (by decide)

/-! ## C8: what an edit does and does not reset -/

/-- C8 (amended): `edit` replaces the document, clears Diagnostics and
clears the Suggestion, but does not touch the loading flag or the in-flight
requests: the session is back in `Idle` only if it already had no request
in flight. -/
theorem c8_edit (s : Session) (t : JStr) :
    (step s (.edit t)).query = t ∧
    (step s (.edit t)).issues = [] ∧
    (step s (.edit t)).diagnostics = [] ∧
    (step s (.edit t)).suggestedFix = [] ∧
    (step s (.edit t)).loading = s.loading ∧
    (step s (.edit t)).pendingValidate = s.pendingValidate ∧
    (step s (.edit t)).pendingSuggest = s.pendingSuggest ∧
    (IdleS (step s (.edit t)) ↔ IdleS s) :=
  ⟨rfl, rfl, rfl, rfl, rfl, rfl, rfl, Iff.rfl⟩

/-- C8 counterexample: an edit issued while a validate request is in flight
does not return the session to `Idle` — the loading flag stays up, and the
pending request later completes and repopulates the Diagnostics (computed
from the stale captured document). -/
theorem c8_cex :
    (steps init [.clickValidate, .edit ("x".data)]).loading = true ∧
    ¬ IdleS (steps init [.clickValidate, .edit ("x".data)]) ∧
    (steps init [.clickValidate, .edit ("x".data),
        .validateComplete (.resp true (some (.jarr [.jstr ("Line 1: bad".data)])))]).diagnostics
      ≠ [] := by decide

/-! ## C2: no staleness check on the suggest-fix completion -/

/-- C2 (amended): a completing suggest-fix request populates the stored
Suggestion unconditionally, even when the current document no longer equals
the one captured when the request was issued — the code performs no
staleness check. -/
theorem c2_noStalenessCheck (s : Session) (q : JStr) (iss : List JStr) (f : FetchOutcome)
    (hp : s.pendingSuggest = some (q, iss)) (_hedit : s.query ≠ q) :
    (step s (.suggestFixComplete f)).suggestedFix = trimOrDefault (getAiSuggestion f) := by
  simp [step, hp]

/-- C2 witness: a session whose current query differs from the captured
one still takes the completion result. -/
theorem c2_noStalenessCheck_w :
    (sStale.query ≠ ("SELECT *".data)) ∧
    (step sStale (.suggestFixComplete (.resp true (some (.jstr ("FIX".data)))))).suggestedFix
      = trimOrDefault (getAiSuggestion (.resp true (some (.jstr ("FIX".data))))) :=
  ⟨by decide, c2_noStalenessCheck _ _ _ _ rfl (by decide)⟩

/-- C2 counterexample: a full run — validate, start suggest-fix, edit,
then the suggest-fix completion — ends with the Suggestion populated by
the stale result instead of discarded. -/
theorem c2_cex :
    (steps init [.edit ("SELECT *\nFROM t".data), .clickValidate,
        .validateComplete (.resp true (some (.jarr [.jstr ("Line 1: avoid SELECT *".data)]))),
        .clickSuggestFix, .edit ("SELECT 1".data),
        .suggestFixComplete (.resp true (some (.jstr ("FIX".data))))]).suggestedFix
      = ("FIX".data) ∧
    ("FIX".data : JStr) ≠ [] ∧
    ("SELECT 1".data : JStr) ≠ ("SELECT *\nFROM t".data) := by decide

/-! ## C3: the suggest-fix gate -/

/-- C3 (amended): the Suggest Fix action is gated on the RAW ISSUE list,
not on the Diagnostic set: it is a no-op exactly when `issues` is empty,
and it proceeds (capturing the current query and issues) whenever `issues`
is non-empty — even if the Diagnostic set is empty. -/
theorem c3_gatedOnIssues (s : Session) :
    (s.issues = [] → step s .clickSuggestFix = s) ∧
    (s.issues ≠ [] → (step s .clickSuggestFix).pendingSuggest = some (s.query, s.issues)) := by
  constructor
  · intro h; simp [step, h]
  · intro h; simp [step, h]

/-- C3 witness: with a non-empty issue list the action goes ahead. -/
theorem c3_gatedOnIssues_w :
    (sIssue.issues ≠ []) ∧
    (step sIssue .clickSuggestFix).pendingSuggest = some (([] : JStr), [("oops".data)]) :=
  ⟨by decide, (c3_gatedOnIssues sIssue).2 (by decide)⟩

/-- C3 counterexample: a validate response whose only issue lacks the
`"Line N:"` prefix leaves the Diagnostic set empty but the issue list
non-empty, and suggest-fix then runs — the claim's gate on the Diagnostic
set does not hold. -/
theorem c3_cex :
    (steps init [.clickValidate,
        .validateComplete (.resp true (some (.jarr [.jstr ("oops".data)])))]).diagnostics
      = [] ∧
    (steps init [.clickValidate,
        .validateComplete (.resp true (some (.jarr [.jstr ("oops".data)])))]).issues
      ≠ [] ∧
    (steps init [.clickValidate,
        .validateComplete (.resp true (some (.jarr [.jstr ("oops".data)]))),
        .clickSuggestFix]).pendingSuggest ≠ none := by decide

/-! ## C9: boundary failure handling -/

/-- C9 (amended): a rejected fetch or a non-JSON body on the validate call,
and any failure of the suggest-fix call (network error or non-success
status), are caught and surfaced as the two distinct fixed strings, with
Diagnostics cleared in the validate case; but the validate boundary does
NOT treat a non-success HTTP status as a failure (see the counterexample
and C10). -/
theorem c9_boundaryFailures :
    (∀ (s : Session) (q : JStr) (f : FetchOutcome), s.pendingValidate = some q →
      (f = .netErr ∨ ∃ ok, f = .resp ok none) →
      (step s (.validateComplete f)).issues = [valErrorMsg] ∧
      (step s (.validateComplete f)).diagnostics = []) ∧
    (∀ (s : Session) (p : JStr × List JStr) (f : FetchOutcome), s.pendingSuggest = some p →
      (f = .netErr ∨ ∃ b, f = .resp false b) →
      (step s (.suggestFixComplete f)).suggestedFix = aiErrorMsg) ∧
    valErrorMsg ≠ aiErrorMsg := by
  refine ⟨?_, ?_, by decide⟩
  · rintro s q f hp (rfl | ⟨ok, rfl⟩)
    · simp [step, hp, handleSubmitDone, validateQuery, valFail]
    · simp [step, hp, handleSubmitDone, validateQuery, valFail]
  · rintro s p f hp (rfl | ⟨b, rfl⟩)
    · simp only [step, hp]
      decide
    · simp only [step, hp]
      have hg : getAiSuggestion (.resp false b) = aiErrorMsg := by
        simp [getAiSuggestion]
      rw [hg]
      decide

/-- C9 witness: a network failure of the validate call lands in the
fallback state. -/
theorem c9_boundaryFailures_w :
    (sPendingV.pendingValidate = some ([] : JStr) ∧
      (FetchOutcome.netErr = FetchOutcome.netErr ∨
        ∃ ok, FetchOutcome.netErr = .resp ok none)) ∧
    (step sPendingV (.validateComplete .netErr)).issues = [valErrorMsg] ∧
    (step sPendingV (.validateComplete .netErr)).diagnostics = [] :=
  ⟨⟨rfl, Or.inl rfl⟩, c9_boundaryFailures.1 sPendingV [] .netErr rfl (Or.inl rfl)⟩

/-- C9 counterexample: a validate response with a NON-SUCCESS status whose
body is a JSON array of issue strings is processed as a normal success —
no synthetic failure message, and the Diagnostics are populated rather
than cleared. -/
theorem c9_cex :
    (steps init [.edit ("SELECT *\nFROM t".data), .clickValidate,
        .validateComplete
          (.resp false (some (.jarr [.jstr ("Line 1: avoid SELECT *".data)])))]).issues
      = [("Line 1: avoid SELECT *".data)] ∧
    (steps init [.edit ("SELECT *\nFROM t".data), .clickValidate,
        .validateComplete
          (.resp false (some (.jarr [.jstr ("Line 1: avoid SELECT *".data)])))]).diagnostics
      ≠ [] ∧
    [("Line 1: avoid SELECT *".data)] ≠ [valErrorMsg] := by decide

/-! ## C10: the validate boundary never inspects the status -/

/-- C10 (confirmed): `validateQuery` returns any JSON body verbatim,
whatever the HTTP status flag is, and rejects exactly on network failure
or a non-JSON body; its result is independent of the status flag. -/
theorem c10_validate_ignores_status :
    (∀ (ok : Bool) (v : JsonVal), validateQuery (.resp ok (some v)) = .ok v) ∧
    (∀ (ok : Bool), validateQuery (.resp ok none) = .error ()) ∧
    validateQuery .netErr = .error () ∧
    (∀ (a b : Bool) (body : Option JsonVal),
      validateQuery (.resp a body) = validateQuery (.resp b body)) := by
  refine ⟨fun ok v => rfl, fun ok => rfl, rfl, fun a b body => ?_⟩
  cases body <;> rfl

/-! ## C7: gutter marks -/

/-- `lineAt` is monotone: a larger position never resolves to a smaller
line number. -/
theorem lineAt_mono (lines : List JStr) :
    ∀ (p q np fp nq fq : Nat), p ≤ q →
      lineAt lines p = some (np, fp) → lineAt lines q = some (nq, fq) → np ≤ nq := by
  induction lines with
  | nil =>
    intro p q np fp nq fq hpq hp hq
    simp [lineAt] at hp
  | cons l ls ih =>
    intro p q np fp nq fq hpq hp hq
    by_cases hpl : p ≤ l.length
    · by_cases hql : q ≤ l.length
      · simp [lineAt, hpl, hql] at hp hq
        omega
      · simp [lineAt, hpl] at hp
        simp only [lineAt, if_neg hql, Option.map_eq_some'] at hq
        obtain ⟨⟨a, b⟩, hrec, hab⟩ := hq
        simp at hab
        omega
    · have hql : ¬ q ≤ l.length := by omega
      simp only [lineAt, if_neg hpl, Option.map_eq_some'] at hp
      simp only [lineAt, if_neg hql, Option.map_eq_some'] at hq
      obtain ⟨⟨a1, b1⟩, hrec1, hab1⟩ := hp
      obtain ⟨⟨a2, b2⟩, hrec2, hab2⟩ := hq
      simp at hab1 hab2
      have := ih (p - (l.length + 1)) (q - (l.length + 1)) a1 b1 a2 b2 (by omega) hrec1 hrec2
      omega

/-- Invariant of the gutter loop: on a position-sorted diagnostic list with
valid positions, the emitted marks carry strictly increasing line numbers,
avoid the seen-set, come from the diagnostics, and together with the
seen-set cover every diagnostic's line. -/
theorem gutterAux_spec (lines : List JStr) :
    ∀ (diags : List Diagnostic) (seen : List Nat),
      (∀ d ∈ diags, (lineAt lines d.fromPos).isSome) →
      List.Pairwise (· ≤ ·) (diags.map (fun d => d.fromPos)) →
      (∀ s ∈ seen, ∀ d ∈ diags, ∀ n f, lineAt lines d.fromPos = some (n, f) → s ≤ n) →
      ∃ ms, gutterMarksAux lines diags seen = some ms ∧
        List.Pairwise (· < ·) (ms.map Prod.fst) ∧
        (∀ x ∈ ms.map Prod.fst, x ∉ seen) ∧
        (∀ x ∈ ms.map Prod.fst,
          ∃ d ∈ diags, (lineAt lines d.fromPos).map Prod.fst = some x) ∧
        (∀ d ∈ diags, ∀ n f, lineAt lines d.fromPos = some (n, f) →
          n ∈ seen ∨ n ∈ ms.map Prod.fst) := by
  intro diags
  induction diags with
  | nil =>
    intro seen _ _ _
    exact ⟨[], rfl, List.Pairwise.nil, by simp, by simp, by simp⟩
  | cons d ds ih =>
    intro seen hv hs hseen
    obtain ⟨⟨n0, f0⟩, hd⟩ : ∃ nf, lineAt lines d.fromPos = some nf :=
      Option.isSome_iff_exists.mp (hv d (by simp))
    have hvds : ∀ e ∈ ds, (lineAt lines e.fromPos).isSome := fun e he => hv e (by simp [he])
    have hpw : List.Pairwise (· ≤ ·) (ds.map (fun d => d.fromPos)) :=
      (List.pairwise_cons.mp hs).2
    have hle : ∀ e ∈ ds, d.fromPos ≤ e.fromPos := by
      intro e he
      exact (List.pairwise_cons.mp hs).1 e.fromPos (List.mem_map_of_mem _ he)
    have hmono : ∀ e ∈ ds, ∀ n f, lineAt lines e.fromPos = some (n, f) → n0 ≤ n := by
      intro e he n f hef
      exact lineAt_mono lines d.fromPos e.fromPos n0 f0 n f (hle e he) hd hef
    simp only [gutterMarksAux, hd]
    by_cases hmem : n0 ∈ seen
    · rw [if_pos hmem]
      have hseen2 : ∀ s ∈ seen, ∀ e ∈ ds, ∀ n f,
          lineAt lines e.fromPos = some (n, f) → s ≤ n :=
        fun s hs2 e he n f hef => hseen s hs2 e (by simp [he]) n f hef
      obtain ⟨ms, hms, hpair, hnot, hfrom, hcov⟩ := ih seen hvds hpw hseen2
      refine ⟨ms, hms, hpair, hnot, ?_, ?_⟩
      · intro x hx
        obtain ⟨e, he, hee⟩ := hfrom x hx
        exact ⟨e, by simp [he], hee⟩
      · intro e he n f hef
        rcases List.mem_cons.mp he with rfl | he2
        · rw [hd] at hef
          simp at hef
          left
          rw [← hef.1]
          exact hmem
        · exact hcov e he2 n f hef
    · rw [if_neg hmem]
      have hseen3 : ∀ s ∈ n0 :: seen, ∀ e ∈ ds, ∀ n f,
          lineAt lines e.fromPos = some (n, f) → s ≤ n := by
        intro s hs3 e he n f hef
        rcases List.mem_cons.mp hs3 with rfl | hs4
        · exact hmono e he n f hef
        · exact hseen s hs4 e (by simp [he]) n f hef
      obtain ⟨ms, hms, hpair, hnot, hfrom, hcov⟩ := ih (n0 :: seen) hvds hpw hseen3
      rw [hms]
      refine ⟨(n0, f0) :: ms, rfl, ?_, ?_, ?_, ?_⟩
      · rw [List.map_cons]
        refine List.pairwise_cons.mpr ⟨?_, hpair⟩
        intro x hx
        obtain ⟨e, he, hee⟩ := hfrom x hx
        obtain ⟨⟨n, f⟩, hef⟩ := Option.isSome_iff_exists.mp (hvds e he)
        rw [hef] at hee
        simp at hee
        have hn0n : n0 ≤ n := hmono e he n f hef
        have hx0 : x ∉ n0 :: seen := hnot x hx
        have hxne : x ≠ n0 := fun h => hx0 (h ▸ List.mem_cons_self _ _)
        omega
      · intro x hx
        rw [List.map_cons] at hx
        rcases List.mem_cons.mp hx with rfl | hx2
        · exact hmem
        · intro hxs
          exact hnot x hx2 (List.mem_cons_of_mem _ hxs)
      · intro x hx
        rw [List.map_cons] at hx
        rcases List.mem_cons.mp hx with rfl | hx2
        · refine ⟨d, by simp, ?_⟩
          rw [hd]
          rfl
        · obtain ⟨e, he, hee⟩ := hfrom x hx2
          exact ⟨e, by simp [he], hee⟩
      · intro e he n f hef
        rcases List.mem_cons.mp he with rfl | he2
        · rw [hd] at hef
          simp at hef
          right
          rw [List.map_cons, ← hef.1]
          exact List.mem_cons_self _ _
        · rcases hcov e he2 n f hef with h1 | h2
          · rcases List.mem_cons.mp h1 with rfl | h3
            · right
              rw [List.map_cons]
              exact List.mem_cons_self _ _
            · left
              exact h3
          · right
            rw [List.map_cons]
            exact List.mem_cons_of_mem _ h2

/-- C7 (amended): for every Diagnostic set whose positions are valid and
weakly ascending (as in the claim's `[3,3,5]` example), the gutter emits
exactly one mark per distinct line that has at least one Diagnostic, with
strictly ascending line numbers.  For out-of-order Diagnostic sets the
marks instead follow first-occurrence order — see the counterexample. -/
theorem c7_gutter (lines : List JStr) (diags : List Diagnostic)
    (hv : ∀ d ∈ diags, (lineAt lines d.fromPos).isSome)
    (hs : List.Pairwise (· ≤ ·) (diags.map (fun d => d.fromPos))) :
    ∃ ms, gutterMarks lines diags = some ms ∧
      List.Pairwise (· < ·) (ms.map Prod.fst) ∧
      (∀ x, x ∈ ms.map Prod.fst ↔
        ∃ d ∈ diags, (lineAt lines d.fromPos).map Prod.fst = some x) := by
  obtain ⟨ms, hms, hpair, _, hfrom, hcov⟩ :=
    gutterAux_spec lines diags [] hv hs (by simp)
  refine ⟨ms, hms, hpair, fun x => ⟨hfrom x, ?_⟩⟩
  rintro ⟨d, hd, hx⟩
  obtain ⟨⟨n, f⟩, hnf⟩ := Option.isSome_iff_exists.mp (hv d hd)
  rw [hnf] at hx
  simp at hx
  subst hx
  rcases hcov d hd n f hnf with h | h
  · simp at h
  · exact h

/-- C7 witness: the spec's deduplication example — Diagnostics on lines
`[3, 3, 5]` of the five-line document yield exactly the two marks for
lines 3 and 5, in ascending order. -/
theorem c7_gutter_w :
    ((∀ d ∈ [dOn3, dOn3, dOn5], (lineAt lines5 d.fromPos).isSome) ∧
      List.Pairwise (· ≤ ·) ([dOn3, dOn3, dOn5].map (fun d => d.fromPos))) ∧
    (∃ ms, gutterMarks lines5 [dOn3, dOn3, dOn5] = some ms ∧
      List.Pairwise (· < ·) (ms.map Prod.fst) ∧
      (∀ x, x ∈ ms.map Prod.fst ↔
        ∃ d ∈ [dOn3, dOn3, dOn5], (lineAt lines5 d.fromPos).map Prod.fst = some x)) :=
  ⟨⟨by decide, by decide⟩, c7_gutter lines5 [dOn3, dOn3, dOn5] (by decide) (by decide)⟩

/-- C7 counterexample: with the same Diagnostics presented in the order
`[5, 3]` the emitted marks are `[(5, 8), (3, 4)]` — first-occurrence order,
not the ascending order `[3, 5]` the claim asserts for every Diagnostic
set. -/
theorem c7_cex :
    (gutterMarks lines5 [dOn5, dOn3]).map (fun ms => ms.map Prod.fst) = some [5, 3] ∧
    ¬ List.Pairwise (· < ·) [5, 3] := by decide

end SQLVal
